import Mathlib

/-!
Verification of the list-management server (`src/server.py`).

The server keeps a process-wide mapping from user id to that user's list
collection; each list collection maps a list name to a list record with a
name, a description and an ordered sequence of items.  Python dictionaries
preserve insertion order, so a user's list collection is embedded as an
association list `List (String × ListRecord)` in insertion order: updating
an existing key keeps its position, inserting a new key appends at the end,
and `dict.pop` removes the (unique) entry.  Python integers are unbounded,
so `id`, `quantity` and the `item_id` arguments are embedded as `Int`.

Each tool reads the caller's collection, possibly replaces it, and returns
a structured result; a tool result is embedded as a structure whose fields
mirror the returned dictionary, with `Option` for keys that are present
only on success.  The process-wide store is embedded as a total function
`String → ListColl`: `get_user_lists` lazily inserts an empty dictionary
for an unseen user, which is observationally the constant-empty default.
-/

namespace PokeLists

/-- An item record: `text`, `quantity`, `notes`, `completed`, `id`,
as built by `add_item_to_list` in `src/server.py`. -/
structure Item where
  text : String
  quantity : Int
  notes : String
  completed : Bool
  id : Int
deriving DecidableEq, Repr

/-- A list record: `name`, `description`, `items`, as built by `create_list`. -/
structure ListRecord where
  name : String
  description : String
  items : List Item
deriving DecidableEq, Repr

/-- A user's list collection: the Python dict `{list_name: list_data}`,
as an association list in insertion order with unique keys. -/
abbrev ListColl := List (String × ListRecord)

/-- Dictionary lookup `user_lists[name]` / `name in user_lists`:
the first (only) entry with the given key. -/
def lookupList (c : ListColl) (n : String) : Option ListRecord :=
  match c with
  | [] => none
  | (k, r) :: rest => if k = n then some r else lookupList rest n

/-- Dictionary assignment `user_lists[name] = r`: an existing key keeps its
position; a new key is appended at the end (Python insertion order). -/
def setList (c : ListColl) (n : String) (r : ListRecord) : ListColl :=
  match c with
  | [] => [(n, r)]
  | (k, r0) :: rest => if k = n then (k, r) :: rest else (k, r0) :: setList rest n r

/-- Dictionary removal `user_lists.pop(name)`. -/
def delListEntry (c : ListColl) (n : String) : ListColl :=
  match c with
  | [] => []
  | (k, r) :: rest => if k = n then rest else (k, r) :: delListEntry rest n

/-- Result of `create_list`. -/
structure CreateResult where
  success : Bool
  message : String
  list : Option ListRecord
deriving DecidableEq, Repr

/-- `create_list(name, description="")` from `src/server.py`. -/
def create_list (name description : String) (c : ListColl) :
    CreateResult × ListColl :=
  if (lookupList c name).isSome then
    ({ success := false, message := "List '" ++ name ++ "' already exists",
       list := none }, c)
  else
    let r : ListRecord := { name := name, description := description, items := [] }
    ({ success := true,
       message := "List '" ++ name ++ "' created successfully",
       list := some r },
     setList c name r)

/-- Result of `add_item_to_list`. -/
structure AddResult where
  success : Bool
  message : String
  item : Option Item
deriving DecidableEq, Repr

/-- `add_item_to_list(list_name, item, quantity=1, notes="")` from `src/server.py`:
the new item's `id` is the current item count plus one. -/
def add_item_to_list (list_name item : String) (quantity : Int) (notes : String)
    (c : ListColl) : AddResult × ListColl :=
  match lookupList c list_name with
  | none =>
    ({ success := false, message := "List '" ++ list_name ++ "' does not exist",
       item := none }, c)
  | some ld =>
    let new_item : Item :=
      { text := item, quantity := quantity, notes := notes, completed := false,
        id := (ld.items.length : Int) + 1 }
    ({ success := true,
       message := "Item '" ++ item ++ "' added to list '" ++ list_name ++ "'",
       item := some new_item },
     setList c list_name { ld with items := ld.items ++ [new_item] })

/-- One entry of `get_lists`' summary sequence. -/
structure ListSummary where
  name : String
  description : String
  item_count : Nat
  completed_count : Nat
deriving DecidableEq, Repr

/-- Result of `get_lists`. -/
structure GetListsResult where
  success : Bool
  lists : List ListSummary
  total_lists : Nat
deriving DecidableEq, Repr

/-- `get_lists()` from `src/server.py`: `completed_count` is
`sum(1 for item in items if item["completed"])`. -/
def get_lists (c : ListColl) : GetListsResult :=
  let lists_summary : List ListSummary := c.map (fun p =>
    { name := p.1,
      description := p.2.description,
      item_count := p.2.items.length,
      completed_count := (p.2.items.map (fun it => if it.completed then 1 else 0)).sum })
  { success := true, lists := lists_summary, total_lists := lists_summary.length }

/-- Result of `get_list_items`. -/
structure GetItemsResult where
  success : Bool
  message : Option String
  list_name : Option String
  items : Option (List Item)
  total_items : Option Nat
deriving DecidableEq, Repr

/-- `get_list_items(list_name)` from `src/server.py`. -/
def get_list_items (list_name : String) (c : ListColl) : GetItemsResult × ListColl :=
  match lookupList c list_name with
  | none =>
    ({ success := false,
       message := some ("List '" ++ list_name ++ "' does not exist"),
       list_name := none, items := none, total_items := none }, c)
  | some ld =>
    ({ success := true, message := none, list_name := some list_name,
       items := some ld.items, total_items := some ld.items.length }, c)

/-- Result of `remove_item_from_list`. -/
structure RemoveResult where
  success : Bool
  message : String
  removed_item : Option Item
deriving DecidableEq, Repr

/-- The removal loop of `remove_item_from_list`: scan for the first item
whose `id` matches, pop it, and stop; return the popped item and the
remaining sequence (unchanged when no item matches). -/
def removeFirstById : List Item → Int → Option Item × List Item
  | [], _ => (none, [])
  | x :: xs, item_id =>
    if x.id = item_id then (some x, xs)
    else
      let p := removeFirstById xs item_id
      (p.1, x :: p.2)

/-- `remove_item_from_list(list_name, item_id)` from `src/server.py`. -/
def remove_item_from_list (list_name : String) (item_id : Int) (c : ListColl) :
    RemoveResult × ListColl :=
  match lookupList c list_name with
  | none =>
    ({ success := false, message := "List '" ++ list_name ++ "' does not exist",
       removed_item := none }, c)
  | some ld =>
    match (removeFirstById ld.items item_id).1 with
    | some it =>
      ({ success := true,
         message := "Item removed from list '" ++ list_name ++ "'",
         removed_item := some it },
       setList c list_name { ld with items := (removeFirstById ld.items item_id).2 })
    | none =>
      ({ success := false,
         message := "Item with ID " ++ toString item_id ++ " not found in list '"
           ++ list_name ++ "'",
         removed_item := none }, c)

/-- Result of `delete_list`. -/
structure DeleteResult where
  success : Bool
  message : String
  deleted_list : Option ListRecord
deriving DecidableEq, Repr

/-- `delete_list(list_name)` from `src/server.py`. -/
def delete_list (list_name : String) (c : ListColl) : DeleteResult × ListColl :=
  match lookupList c list_name with
  | none =>
    ({ success := false, message := "List '" ++ list_name ++ "' does not exist",
       deleted_list := none }, c)
  | some ld =>
    ({ success := true,
       message := "List '" ++ list_name ++ "' deleted successfully",
       deleted_list := some ld },
     delListEntry c list_name)

/-- Result of `toggle_item_completion`. -/
structure ToggleResult where
  success : Bool
  message : String
  item : Option Item
deriving DecidableEq, Repr

/-- The toggle loop of `toggle_item_completion`: flip `completed` of the
first item whose `id` matches and stop; return the updated item and the
updated sequence (unchanged when no item matches). -/
def toggleFirstById : List Item → Int → Option Item × List Item
  | [], _ => (none, [])
  | x :: xs, item_id =>
    if x.id = item_id then
      let x2 := { x with completed := !x.completed }
      (some x2, x2 :: xs)
    else
      let p := toggleFirstById xs item_id
      (p.1, x :: p.2)

/-- `toggle_item_completion(list_name, item_id)` from `src/server.py`. -/
def toggle_item_completion (list_name : String) (item_id : Int) (c : ListColl) :
    ToggleResult × ListColl :=
  match lookupList c list_name with
  | none =>
    ({ success := false, message := "List '" ++ list_name ++ "' does not exist",
       item := none }, c)
  | some ld =>
    match (toggleFirstById ld.items item_id).1 with
    | some it =>
      ({ success := true,
         message := "Item marked as "
           ++ (if it.completed then "completed" else "uncompleted"),
         item := some it },
       setList c list_name { ld with items := (toggleFirstById ld.items item_id).2 })
    | none =>
      ({ success := false,
         message := "Item with ID " ++ toString item_id ++ " not found in list '"
           ++ list_name ++ "'",
         item := none }, c)

/-- One entry of `search_items`' results: `{"list_name": ..., "item": ...}`. -/
structure SearchHit where
  list_name : String
  item : Item
deriving DecidableEq, Repr

/-- Result of `search_items`. -/
structure SearchResult where
  success : Bool
  query : String
  results : List SearchHit
  total_found : Nat
deriving DecidableEq, Repr

/-- Python list/string prefix test used to define substring containment. -/
def isPrefixB : List Char → List Char → Bool
  | [], _ => true
  | _ :: _, [] => false
  | x :: xs, y :: ys => x == y && isPrefixB xs ys

/-- Python `needle in hay` on character sequences: `needle` occurs as a
contiguous subsequence of `hay` (the empty needle occurs in everything). -/
def substrB (needle : List Char) : List Char → Bool
  | [] => needle.isEmpty
  | c :: rest => isPrefixB needle (c :: rest) || substrB needle rest

/-- Python `needle in hay` on strings. -/
def pyIn (needle hay : String) : Bool :=
  substrB needle.toList hay.toList

/-- Python `s.lower()`: lowercase each character of the string. -/
def pyLower (s : String) : String :=
  String.mk (s.data.map Char.toLower)

/-- The match test of `search_items`:
`query.lower() in item["text"].lower() or query.lower() in item["notes"].lower()`. -/
def itemMatches (query : String) (it : Item) : Bool :=
  pyIn (pyLower query) (pyLower it.text) || pyIn (pyLower query) (pyLower it.notes)

/-- The nested loop of `search_items` over the chosen collection: for each
list in order, each matching item in order yields a `SearchHit`. -/
def collectMatches (query : String) (coll : ListColl) : List SearchHit :=
  coll.flatMap (fun p =>
    (p.2.items.filter (itemMatches query)).map
      (fun it => { list_name := p.1, item := it }))

/-- `search_items(query, list_name=None)` from `src/server.py`.  The scope is
`{list_name: user_lists[list_name]} if list_name and list_name in user_lists
else user_lists`: Python truthiness makes both `None` and the empty string
fall back to the whole collection. -/
def search_items (query : String) (list_name : Option String) (c : ListColl) :
    SearchResult × ListColl :=
  let lists_to_search : ListColl :=
    match list_name with
    | none => c
    | some n =>
      if n = "" then c
      else
        match lookupList c n with
        | some ld => [(n, ld)]
        | none => c
  let results := collectMatches query lists_to_search
  ({ success := true, query := query, results := results,
     total_found := results.length }, c)

/-- The process-wide store `user_lists_data`, keyed by user id.
`get_user_lists` lazily inserts `{}` for an unseen user, so the store is
embedded as a total function whose default value is the empty collection. -/
abbrev Store := String → ListColl

/-- The initial (empty) store. -/
def emptyStore : Store := fun _ => []

/-- `get_user_id()`: the `x-user-id` header when present, else `"anonymous"`. -/
def get_user_id (headers : List (String × String)) : String :=
  (headers.lookup "x-user-id").getD "anonymous"

/-- `get_user_lists(user_id)`: the user's collection (empty for an unseen user). -/
def get_user_lists (s : Store) (user_id : String) : ListColl :=
  s user_id

/-- Writing back one user's collection into the store. -/
def updateUser (s : Store) (user_id : String) (c : ListColl) : Store :=
  fun v => if v = user_id then c else s v

/-- The shape shared by every tool: resolve the caller's collection, run the
per-collection operation on it, and store the updated collection back under
the caller's id. -/
def liftOp {α : Type} (f : ListColl → α × ListColl) (user_id : String)
    (s : Store) : α × Store :=
  ((f (get_user_lists s user_id)).1,
   updateUser s user_id (f (get_user_lists s user_id)).2)

/-- `create_list` as executed for a given caller. -/
def create_list_as (u : String) (name description : String) (s : Store) :
    CreateResult × Store :=
  liftOp (create_list name description) u s

/-- `add_item_to_list` as executed for a given caller. -/
def add_item_to_list_as (u : String) (list_name item : String) (quantity : Int)
    (notes : String) (s : Store) : AddResult × Store :=
  liftOp (add_item_to_list list_name item quantity notes) u s

/-- `get_lists` as executed for a given caller. -/
def get_lists_as (u : String) (s : Store) : GetListsResult × Store :=
  liftOp (fun c => (get_lists c, c)) u s

/-- `get_list_items` as executed for a given caller. -/
def get_list_items_as (u : String) (list_name : String) (s : Store) :
    GetItemsResult × Store :=
  liftOp (get_list_items list_name) u s

/-- `remove_item_from_list` as executed for a given caller. -/
def remove_item_from_list_as (u : String) (list_name : String) (item_id : Int)
    (s : Store) : RemoveResult × Store :=
  liftOp (remove_item_from_list list_name item_id) u s

/-- `delete_list` as executed for a given caller. -/
def delete_list_as (u : String) (list_name : String) (s : Store) :
    DeleteResult × Store :=
  liftOp (delete_list list_name) u s

/-- `toggle_item_completion` as executed for a given caller. -/
def toggle_item_completion_as (u : String) (list_name : String) (item_id : Int)
    (s : Store) : ToggleResult × Store :=
  liftOp (toggle_item_completion list_name item_id) u s

/-- `search_items` as executed for a given caller. -/
def search_items_as (u : String) (query : String) (list_name : Option String)
    (s : Store) : SearchResult × Store :=
  liftOp (search_items query list_name) u s

/-! ### Basic lemmas about the collection operations -/

@[simp]
theorem lookupList_setList_self (c : ListColl) (n : String) (r : ListRecord) :
    lookupList (setList c n r) n = some r := by
  induction c with
  | nil => simp [setList, lookupList]
  | cons p rest ih =>
    obtain ⟨k, r0⟩ := p
    by_cases hk : k = n <;> simp [setList, lookupList, hk, ih]

theorem lookupList_setList_ne (c : ListColl) (n m : String) (r : ListRecord)
    (h : m ≠ n) : lookupList (setList c n r) m = lookupList c m := by
  induction c with
  | nil => simp [setList, lookupList, Ne.symm h]
  | cons p rest ih =>
    obtain ⟨k, r0⟩ := p
    by_cases hk : k = n
    · subst hk
      simp [setList, lookupList, Ne.symm h, ih]
    · simp [setList, lookupList, hk, ih]

theorem setList_setList (c : ListColl) (n : String) (r1 r2 : ListRecord) :
    setList (setList c n r1) n r2 = setList c n r2 := by
  induction c with
  | nil => simp [setList]
  | cons p rest ih =>
    obtain ⟨k, r0⟩ := p
    by_cases hk : k = n <;> simp [setList, hk, ih]

theorem setList_of_lookup (c : ListColl) (n : String) (ld : ListRecord)
    (h : lookupList c n = some ld) : setList c n ld = c := by
  induction c with
  | nil => simp [lookupList] at h
  | cons p rest ih =>
    obtain ⟨k, r0⟩ := p
    by_cases hk : k = n
    · subst hk
      simp [lookupList] at h
      simp [setList, h]
    · simp [lookupList, hk] at h
      simp [setList, hk, ih h]

/-! ### C1: ids returned by consecutive adds -/

/-- A sequence of `add_item_to_list` calls (default quantity and notes) on
one list, collecting the returned item ids in call order. -/
def iterAdds (list_name : String) (texts : List String) (c : ListColl) :
    List (Option Int) × ListColl :=
  match texts with
  | [] => ([], c)
  | t :: ts =>
    let p := add_item_to_list list_name t 1 "" c
    let q := iterAdds list_name ts p.2
    ((p.1.item.map Item.id) :: q.1, q.2)

theorem add_item_ok (c : ListColl) (n t : String) (q : Int) (no : String)
    (ld : ListRecord) (h : lookupList c n = some ld) :
    add_item_to_list n t q no c
      = ({ success := true,
           message := "Item '" ++ t ++ "' added to list '" ++ n ++ "'",
           item := some { text := t, quantity := q, notes := no,
                          completed := false,
                          id := (ld.items.length : Int) + 1 } },
         setList c n { ld with items := ld.items ++
           [{ text := t, quantity := q, notes := no, completed := false,
              id := (ld.items.length : Int) + 1 }] }) := by
  simp [add_item_to_list, h]

theorem iterAdds_ids (n : String) (texts : List String) :
    ∀ (c : ListColl) (ld : ListRecord), lookupList c n = some ld →
      (iterAdds n texts c).1
        = (List.range texts.length).map
            (fun k => some ((ld.items.length + k + 1 : Nat) : Int)) := by
  induction texts with
  | nil => intro c ld _; simp [iterAdds]
  | cons t ts ih =>
    intro c ld h
    have hstep := add_item_ok c n t 1 "" ld h
    set newit : Item :=
      { text := t, quantity := 1, notes := "", completed := false,
        id := (ld.items.length : Int) + 1 } with hnew
    have h2 : lookupList (setList c n { ld with items := ld.items ++ [newit] }) n
        = some { ld with items := ld.items ++ [newit] } :=
      lookupList_setList_self ..
    have htail := ih (setList c n { ld with items := ld.items ++ [newit] })
      { ld with items := ld.items ++ [newit] } h2
    simp only [iterAdds, hstep, htail, List.length_cons]
    rw [List.range_succ_eq_map, List.map_cons, List.map_map]
    simp only [List.cons.injEq]
    refine ⟨?_, ?_⟩
    · simp only [hnew, Option.map_some']
      simp only [Option.some.injEq]
      push_cast
      ring
    · apply List.map_congr_left
      intro k _
      simp only [Function.comp_apply, List.length_append, List.length_cons,
        List.length_nil, Option.some.injEq]
      push_cast
      omega

/-- C1: with no intervening removals, each `add_item_to_list` call assigns
the new item an id equal to the list's current item count plus one, so the
k-th of N consecutive adds on a list currently holding `m` items returns id
`m + k`; starting from an empty list the returned ids are exactly 1..N in
call order. -/
theorem add_ids_one_to_N (n : String) (texts : List String) (c : ListColl)
    (ld : ListRecord) (h : lookupList c n = some ld) :
    (iterAdds n texts c).1
        = (List.range texts.length).map
            (fun k => some ((ld.items.length + k + 1 : Nat) : Int)) ∧
    (ld.items = [] →
      (iterAdds n texts c).1
        = (List.range texts.length).map (fun k => some ((k + 1 : Nat) : Int))) := by
  refine ⟨iterAdds_ids n texts c ld h, fun hnil => ?_⟩
  rw [iterAdds_ids n texts c ld h, hnil]
  simp

theorem add_ids_one_to_N_witness :
    (iterAdds "L" ["a", "b", "c"]
        [("L", { name := "L", description := "", items := [] })]).1
      = [some 1, some 2, some 3] := by
  have h := (add_ids_one_to_N "L" ["a", "b", "c"]
    [("L", { name := "L", description := "", items := [] })]
    { name := "L", description := "", items := [] } rfl).2 rfl
  simpa [List.range_succ] using h

/-! ### C2: id reuse after a removal -/

/-- C2: after adding three items (ids 1, 2, 3) to a fresh list, removing
id 2, and adding a fourth item, the fourth item is assigned id 3 — the
item count is back to 2 — colliding with the surviving item of id 3. -/
theorem removed_id_is_reused :
    (let s0 := (create_list "Groceries" "" []).2
     let s1 := (add_item_to_list "Groceries" "a" 1 "" s0).2
     let s2 := (add_item_to_list "Groceries" "b" 1 "" s1).2
     let s3 := (add_item_to_list "Groceries" "c" 1 "" s2).2
     let s4 := (remove_item_from_list "Groceries" 2 s3).2
     let r := add_item_to_list "Groceries" "d" 1 "" s4
     r.1.item.map Item.id = some 3 ∧
       (lookupList r.2 "Groceries").map (fun ld => ld.items.map Item.id)
         = some [1, 3, 3]) := by
  exact ⟨rfl, rfl⟩

/-! ### C3: creating a duplicate list name fails and changes nothing -/

/-- C3: `create_list` with a name already present in the caller's
collection returns `success := false`, leaves the whole collection exactly
as it was, and in particular leaves the existing record (with its items)
unmodified. -/
theorem create_duplicate_fails (c : ListColl) (name d : String)
    (ld : ListRecord) (h : lookupList c name = some ld) :
    (create_list name d c).1.success = false ∧
    (create_list name d c).2 = c ∧
    lookupList (create_list name d c).2 name = some ld := by
  simp [create_list, h]

theorem create_duplicate_fails_witness :
    (create_list "G" "x"
        [("G", { name := "G", description := "", items := [] })]).2
      = [("G", { name := "G", description := "", items := [] })] :=
  (create_duplicate_fails
    [("G", { name := "G", description := "", items := [] })] "G" "x"
    { name := "G", description := "", items := [] } rfl).2.1

/-! ### C4 and C10: the toggle loop -/

/-- The first item with a given id — the item the toggle and removal loops
act on. -/
def findById : List Item → Int → Option Item
  | [], _ => none
  | x :: xs, i => if x.id = i then some x else findById xs i

theorem toggleFirstById_fst (items : List Item) (i : Int) :
    (toggleFirstById items i).1
      = (findById items i).map (fun x => { x with completed := !x.completed }) := by
  induction items with
  | nil => simp [toggleFirstById, findById]
  | cons x xs ih =>
    by_cases hx : x.id = i <;> simp [toggleFirstById, findById, hx, ih]

theorem toggleFirstById_toggleFirstById (items : List Item) (i : Int)
    (it0 : Item) (hf : findById items i = some it0) :
    toggleFirstById (toggleFirstById items i).2 i = (some it0, items) := by
  induction items with
  | nil => simp [findById] at hf
  | cons x xs ih =>
    obtain ⟨tx, qx, nx, bx, ix⟩ := x
    by_cases hx : ix = i
    · subst hx
      simp [findById] at hf
      subst hf
      simp [toggleFirstById]
    · simp [findById, hx] at hf
      have h2 := ih hf
      simp [toggleFirstById, hx, h2]

/-- C4: `toggle_item_completion` is an involution; when the list exists and
holds an item with the given id, one call returns that (first matching)
item with its `completed` flag flipped, and a second call with the same
arguments returns the original item and restores the caller's collection
exactly. -/
theorem toggle_is_involution (c : ListColl) (n : String) (i : Int)
    (ld : ListRecord) (it0 : Item)
    (h : lookupList c n = some ld) (hf : findById ld.items i = some it0) :
    (toggle_item_completion n i c).1.success = true ∧
    (toggle_item_completion n i c).1.item
      = some { it0 with completed := !it0.completed } ∧
    (toggle_item_completion n i (toggle_item_completion n i c).2).1.item
      = some it0 ∧
    (toggle_item_completion n i (toggle_item_completion n i c).2).2 = c := by
  have h1 : (toggleFirstById ld.items i).1
      = some { it0 with completed := !it0.completed } := by
    rw [toggleFirstById_fst, hf]; rfl
  have htt := toggleFirstById_toggleFirstById ld.items i it0 hf
  have h1' : (toggleFirstById (toggleFirstById ld.items i).2 i).1 = some it0 := by
    rw [htt]
  have h2' : (toggleFirstById (toggleFirstById ld.items i).2 i).2 = ld.items := by
    rw [htt]
  refine ⟨?_, ?_, ?_, ?_⟩
  · simp [toggle_item_completion, h, h1]
  · simp [toggle_item_completion, h, h1]
  · simp [toggle_item_completion, h, h1, h1']
  · simp [toggle_item_completion, h, h1, h1', h2', setList_setList]
    exact setList_of_lookup c n ld h

theorem toggle_is_involution_witness :
    (toggle_item_completion "L" 1
        (toggle_item_completion "L" 1
          [("L", { name := "L", description := "",
                   items := [⟨"a", 1, "", false, 1⟩] })]).2).2
      = [("L", { name := "L", description := "",
                 items := [⟨"a", 1, "", false, 1⟩] })] :=
  (toggle_is_involution
    [("L", { name := "L", description := "", items := [⟨"a", 1, "", false, 1⟩] })]
    "L" 1
    { name := "L", description := "", items := [⟨"a", 1, "", false, 1⟩] }
    ⟨"a", 1, "", false, 1⟩ rfl rfl).2.2.2

theorem toggleFirstById_split (l1 l2 : List Item) (x : Item) (i : Int)
    (h1 : ∀ y ∈ l1, y.id ≠ i) (hx : x.id = i) :
    toggleFirstById (l1 ++ x :: l2) i
      = (some { x with completed := !x.completed },
         l1 ++ { x with completed := !x.completed } :: l2) := by
  induction l1 with
  | nil => simp [toggleFirstById, hx]
  | cons y ys ih =>
    have hy : y.id ≠ i := h1 y (by simp)
    have ih' := ih (fun z hz => h1 z (by simp [hz]))
    simp [toggleFirstById, hy, ih']

/-- C10: when a list's item sequence splits as `l1 ++ x :: l2` with no item
of `l1` carrying the requested id and `x` carrying it, toggling that id
flips only `x` — the first match — and returns it; every later item
(including any shadowed duplicate with the same id in `l2`) is left
exactly as it was. -/
theorem toggle_flips_only_first_duplicate (c : ListColl) (n : String)
    (i : Int) (ld : ListRecord) (l1 l2 : List Item) (x : Item)
    (h : lookupList c n = some ld) (hsplit : ld.items = l1 ++ x :: l2)
    (h1 : ∀ y ∈ l1, y.id ≠ i) (hx : x.id = i) :
    (toggle_item_completion n i c).1.item
      = some { x with completed := !x.completed } ∧
    lookupList (toggle_item_completion n i c).2 n
      = some { ld with items := l1 ++ { x with completed := !x.completed } :: l2 } := by
  have ht := toggleFirstById_split l1 l2 x i h1 hx
  have ht1 : (toggleFirstById ld.items i).1
      = some { x with completed := !x.completed } := by rw [hsplit, ht]
  have ht2 : (toggleFirstById ld.items i).2
      = l1 ++ { x with completed := !x.completed } :: l2 := by rw [hsplit, ht]
  constructor
  · simp [toggle_item_completion, h, ht1]
  · simp [toggle_item_completion, h, ht1, ht2]

theorem toggle_flips_only_first_duplicate_witness :
    lookupList (toggle_item_completion "L" 3
        [("L", { name := "L", description := "",
                 items := [⟨"a", 1, "", false, 1⟩, ⟨"b", 1, "", false, 3⟩,
                           ⟨"d", 1, "", false, 3⟩] })]).2 "L"
      = some { name := "L", description := "",
               items := [⟨"a", 1, "", false, 1⟩, ⟨"b", 1, "", true, 3⟩,
                         ⟨"d", 1, "", false, 3⟩] } :=
  (toggle_flips_only_first_duplicate
    [("L", { name := "L", description := "",
             items := [⟨"a", 1, "", false, 1⟩, ⟨"b", 1, "", false, 3⟩,
                       ⟨"d", 1, "", false, 3⟩] })]
    "L" 3
    { name := "L", description := "",
      items := [⟨"a", 1, "", false, 1⟩, ⟨"b", 1, "", false, 3⟩,
                ⟨"d", 1, "", false, 3⟩] }
    [⟨"a", 1, "", false, 1⟩] [⟨"d", 1, "", false, 3⟩] ⟨"b", 1, "", false, 3⟩
    rfl rfl (by decide) rfl).2

/-! ### C6: the removal loop -/

theorem removeFirstById_none (items : List Item) (i : Int)
    (h : ∀ x ∈ items, x.id ≠ i) : removeFirstById items i = (none, items) := by
  induction items with
  | nil => simp [removeFirstById]
  | cons x xs ih =>
    have hx : x.id ≠ i := h x (by simp)
    have ih' := ih (fun z hz => h z (by simp [hz]))
    simp [removeFirstById, hx, ih']

theorem removeFirstById_split (items : List Item) (i : Int) (it : Item) :
    ∀ rest, removeFirstById items i = (some it, rest) →
      ∃ l1 l2, items = l1 ++ it :: l2 ∧ rest = l1 ++ l2 ∧
        (∀ x ∈ l1, x.id ≠ i) ∧ it.id = i := by
  induction items with
  | nil => intro rest h; simp [removeFirstById] at h
  | cons x xs ih =>
    intro rest h
    by_cases hx : x.id = i
    · simp only [removeFirstById, if_pos hx, Prod.mk.injEq, Option.some.injEq] at h
      obtain ⟨rfl, rfl⟩ := h
      exact ⟨[], xs, by simp, by simp, by simp, hx⟩
    · simp only [removeFirstById, if_neg hx, Prod.mk.injEq] at h
      obtain ⟨h1, h2⟩ := h
      have hxs : removeFirstById xs i = (some it, (removeFirstById xs i).2) := by
        rw [← h1]
      obtain ⟨l1, l2, e1, e2, hl1, hit⟩ := ih (removeFirstById xs i).2 hxs
      refine ⟨x :: l1, l2, by simp [e1], by rw [← h2, e2]; simp, ?_, hit⟩
      intro z hz
      rcases List.mem_cons.mp hz with rfl | hz'
      · exact hx
      · exact hl1 z hz'

/-- C6: a successful `remove_item_from_list` removes exactly one item — the
first item in sequence order whose id matches — and returns it: the item
sequence splits as `l1 ++ it :: l2` with no match in `l1`, and the
remainder is `l1 ++ l2`.  When no other item with that id survives, an
immediately repeated removal fails with the not-found message and leaves
the collection untouched. -/
theorem remove_removes_first_match_once (c : ListColl) (n : String)
    (i : Int) (ld : ListRecord) (it : Item) (rest : List Item)
    (h : lookupList c n = some ld)
    (hr : removeFirstById ld.items i = (some it, rest)) :
    (remove_item_from_list n i c).1.success = true ∧
    (remove_item_from_list n i c).1.removed_item = some it ∧
    (remove_item_from_list n i c).2 = setList c n { ld with items := rest } ∧
    (∃ l1 l2, ld.items = l1 ++ it :: l2 ∧ rest = l1 ++ l2 ∧
      (∀ x ∈ l1, x.id ≠ i) ∧ it.id = i) ∧
    ((∀ x ∈ rest, x.id ≠ i) →
      (remove_item_from_list n i (remove_item_from_list n i c).2).1.success
          = false ∧
      (remove_item_from_list n i (remove_item_from_list n i c).2).1.message
          = "Item with ID " ++ toString i ++ " not found in list '" ++ n ++ "'" ∧
      (remove_item_from_list n i (remove_item_from_list n i c).2).2
          = (remove_item_from_list n i c).2) := by
  have h1 : (removeFirstById ld.items i).1 = some it := by rw [hr]
  have h2 : (removeFirstById ld.items i).2 = rest := by rw [hr]
  refine ⟨?_, ?_, ?_, removeFirstById_split ld.items i it rest hr, ?_⟩
  · simp [remove_item_from_list, h, h1]
  · simp [remove_item_from_list, h, h1]
  · simp [remove_item_from_list, h, h1, h2]
  · intro hnone
    have hrem2 := removeFirstById_none rest i hnone
    refine ⟨?_, ?_, ?_⟩ <;>
      simp [remove_item_from_list, h, h1, h2, hrem2]

theorem remove_removes_first_match_once_witness :
    (remove_item_from_list "L" 1
        [("L", { name := "L", description := "",
                 items := [⟨"a", 1, "", false, 1⟩, ⟨"b", 1, "", false, 2⟩] })]).1.removed_item
      = some ⟨"a", 1, "", false, 1⟩ :=
  (remove_removes_first_match_once
    [("L", { name := "L", description := "",
             items := [⟨"a", 1, "", false, 1⟩, ⟨"b", 1, "", false, 2⟩] })]
    "L" 1
    { name := "L", description := "",
      items := [⟨"a", 1, "", false, 1⟩, ⟨"b", 1, "", false, 2⟩] }
    ⟨"a", 1, "", false, 1⟩ [⟨"b", 1, "", false, 2⟩] rfl rfl).2.1

/-! ### C5: get_lists summaries -/

theorem sum_indicator_eq_length_filter (l : List Item) :
    (l.map (fun it => if it.completed then 1 else 0)).sum
      = (l.filter (fun it => it.completed)).length := by
  induction l with
  | nil => simp
  | cons x xs ih =>
    by_cases hx : x.completed = true
    · simp [List.filter_cons, hx, ih]
      omega
    · simp [List.filter_cons, hx, ih]

/-- C5: `get_lists` never fails, returns one summary per list in order, and
each summary's `item_count` equals the length of that list's item sequence
while `completed_count` equals the number of its items whose `completed`
flag is true. -/
theorem get_lists_counts (coll : ListColl) :
    (get_lists coll).success = true ∧
    (get_lists coll).total_lists = coll.length ∧
    (get_lists coll).lists.length = coll.length ∧
    ∀ i : Nat,
      ((get_lists coll).lists[i]?).map
          (fun s => (s.name, s.item_count, s.completed_count))
        = (coll[i]?).map
            (fun p => (p.1, p.2.items.length,
              (p.2.items.filter (fun it => it.completed)).length)) := by
  refine ⟨rfl, by simp [get_lists], by simp [get_lists], ?_⟩
  intro i
  unfold get_lists
  simp only [List.getElem?_map]
  cases coll[i]? with
  | none => simp
  | some p => simp [sum_indicator_eq_length_filter]

/-! ### C9: per-user noninterference -/

/-- C9: every tool factors through `liftOp`, which reads and writes only the
caller's own collection.  For distinct user ids `a ≠ b`, an operation run
as `a` leaves `b`'s collection exactly as it was, a subsequent operation
run as `b` returns the same result as it would have before `a`'s
operation, and `a`'s result depends only on `a`'s own collection. -/
theorem user_noninterference {α β : Type} (f : ListColl → α × ListColl)
    (g : ListColl → β × ListColl) (a b : String) (s : Store) (hab : a ≠ b) :
    get_user_lists (liftOp f a s).2 b = get_user_lists s b ∧
    (liftOp g b (liftOp f a s).2).1 = (liftOp g b s).1 ∧
    (liftOp f a s).1 = (f (get_user_lists s a)).1 := by
  unfold liftOp updateUser get_user_lists
  simp [if_neg (Ne.symm hab)]

theorem user_noninterference_witness :
    get_user_lists (create_list_as "A" "Groceries" "" emptyStore).2 "anonymous"
        = get_user_lists emptyStore "anonymous" ∧
    (get_lists_as "anonymous"
        (create_list_as "A" "Groceries" "" emptyStore).2).1.lists = [] := by
  constructor
  · exact (user_noninterference (create_list "Groceries" "")
      (fun x => (get_lists x, x)) "A" "anonymous" emptyStore (by decide)).1
  · rfl

/-! ### C7: search scoping -/

/-- Counterexample to C7 as stated: with a list actually named `""` in the
collection, `search_items` given `list_name = ""` does NOT restrict the
search to that list — Python's truthiness test `if list_name and ...`
treats the empty string as absent, so the whole collection is searched and
a hit from list `"B"` is returned. -/
theorem search_scope_cex :
    (let cEx : ListColl :=
      [("", { name := "", description := "",
              items := [⟨"milk", 1, "", false, 1⟩] }),
       ("B", { name := "B", description := "",
               items := [⟨"milky", 1, "", false, 1⟩] })]
     (lookupList cEx "").isSome = true ∧
     (search_items "m" (some "") cEx).1.results.map SearchHit.list_name
       = ["", "B"]) := by
  exact ⟨rfl, rfl⟩

/-- C7 (amended): `search_items` never fails and never changes the store;
when a NON-EMPTY `list_name` is given and exists in the caller's
collection, the search is restricted to that list; otherwise — `list_name`
absent, equal to the empty string, or not present — the whole collection
is searched. -/
theorem search_scope_amended (q : String) (ln : Option String)
    (coll : ListColl) :
    (search_items q ln coll).1.success = true ∧
    (search_items q ln coll).2 = coll ∧
    (search_items q none coll).1.results = collectMatches q coll ∧
    (∀ n, ln = some n → n ≠ "" → ∀ ld, lookupList coll n = some ld →
      (search_items q ln coll).1.results = collectMatches q [(n, ld)]) ∧
    (∀ n, ln = some n → lookupList coll n = none →
      (search_items q ln coll).1.results = collectMatches q coll) ∧
    (search_items q (some "") coll).1.results = collectMatches q coll := by
  refine ⟨?_, rfl, rfl, ?_, ?_, ?_⟩
  · cases ln with
    | none => rfl
    | some n => rfl
  · intro n hln hn ld hld
    subst hln
    simp [search_items, hn, hld]
  · intro n hln hnone
    subst hln
    by_cases hn : n = "" <;> simp [search_items, hn, hnone]
  · simp [search_items]

theorem search_scope_amended_witness :
    (search_items "milk" (some "A")
        [("A", { name := "A", description := "",
                 items := [⟨"milk", 1, "", false, 1⟩] }),
         ("B", { name := "B", description := "",
                 items := [⟨"milky", 1, "", false, 2⟩] })]).1.results
      = collectMatches "milk"
          [("A", { name := "A", description := "",
                   items := [⟨"milk", 1, "", false, 1⟩] })] :=
  (search_scope_amended "milk" (some "A")
      [("A", { name := "A", description := "",
               items := [⟨"milk", 1, "", false, 1⟩] }),
       ("B", { name := "B", description := "",
               items := [⟨"milky", 1, "", false, 2⟩] })]).2.2.2.1
    "A" rfl (by decide)
    { name := "A", description := "", items := [⟨"milk", 1, "", false, 1⟩] } rfl

/-! ### C8: query matching -/

theorem substrB_nil (hay : List Char) : substrB [] hay = true := by
  cases hay <;> simp [substrB, isPrefixB]

theorem pyIn_empty (hay : String) : pyIn "" hay = true := by
  have h : ("" : String).toList = [] := rfl
  rw [pyIn, h]
  exact substrB_nil hay.toList

theorem itemMatches_empty (it : Item) : itemMatches "" it = true := by
  have h : pyLower "" = "" := rfl
  simp [itemMatches, h, pyIn_empty]

/-- Counterexample to C8 as stated: over a non-empty store, `search_items`
with the empty query returns every item, not zero results — in Python the
empty string is a substring of every string. -/
theorem empty_query_matches_all_cex :
    (let cM : ListColl :=
      [("L", { name := "L", description := "",
               items := [⟨"milk", 2, "", false, 1⟩] })]
     cM ≠ [] ∧ (search_items "" none cM).1.total_found = 1) := by
  exact ⟨by simp, rfl⟩

theorem collectMatches_of_no_match (q : String) (coll : ListColl)
    (h : ∀ p ∈ coll, ∀ it ∈ p.2.items, itemMatches q it = false) :
    collectMatches q coll = [] := by
  induction coll with
  | nil => rfl
  | cons p rest ih =>
    have h1 : p.2.items.filter (itemMatches q) = [] :=
      List.filter_eq_nil_iff.mpr
        (fun a ha => by simp [h p (by simp) a ha])
    have ih' := ih (fun z hz => h z (by simp [hz]))
    simp [collectMatches, h1]
    simpa [collectMatches] using ih'

/-- C8 (amended): `search_items` matching is case-insensitive substring
containment over an item's text or notes (`"MILK"` matches text `"milk"`),
and a query matching no item yields `total_found = 0` with empty results;
the empty query, however, matches every item — it returns one hit per item
of the store rather than zero. -/
theorem search_query_semantics (coll : ListColl) (q : String) :
    ((search_items "" none coll).1.results.length
        = (coll.map (fun p => p.2.items.length)).sum) ∧
    ((∀ p ∈ coll, ∀ it ∈ p.2.items, itemMatches q it = false) →
      (search_items q none coll).1.total_found = 0 ∧
      (search_items q none coll).1.results = []) ∧
    itemMatches "MILK" ⟨"milk", 1, "", false, 1⟩ = true := by
  refine ⟨?_, ?_, by decide⟩
  · show (collectMatches "" coll).length = _
    rw [collectMatches, List.length_flatMap]
    congr 1
    apply List.map_congr_left
    intro p _
    simp only [Function.comp_apply, List.length_map]
    rw [List.filter_eq_self.mpr (fun a _ => itemMatches_empty a)]
  · intro h
    have h0 := collectMatches_of_no_match q coll h
    constructor
    · show (collectMatches q coll).length = 0
      rw [h0]
      rfl
    · show collectMatches q coll = []
      exact h0

theorem search_query_semantics_witness :
    (search_items "zzz" none
        [("L", { name := "L", description := "",
                 items := [⟨"milk", 2, "", false, 1⟩] })]).1.total_found = 0 :=
  ((search_query_semantics
      [("L", { name := "L", description := "",
               items := [⟨"milk", 2, "", false, 1⟩] })] "zzz").2.1
    (by decide)).1

end PokeLists
